import Mathlib

/-!
Verification of the memory / profile / task / mood subsystem of the
reflective-wellness-coach repository, shallowly embedded in Lean.

The embedding follows the Python source:
  backend/memory/memory_manager.py   (profile upsert, relevance ranking)
  backend/chains/conversation_chain.py (_extract_user_facts, _store_user_facts)
  backend/todo/task_manager.py       (add_task, update_task, delete_task)
  backend/analytics/mood_tracker.py  (_parse_mood_value, log_mood,
                                      _get_mood_entries_in_range)

Strings are processed as `List Char` mirroring Python string operations;
machine floats that only ever flow through comparisons and truncation are
modelled as `ℚ`; wall-clock timestamps and serialized JSON payloads are
passed in as explicit parameters since they come from the environment.
-/

/-- Single-quote character (codepoint 39), used to build message literals. -/
def aposChar : Char := Char.ofNat 39

/-- Lower-case a character list; models Python `str.lower` on ASCII input. -/
def listLower (l : List Char) : List Char := l.map Char.toLower

/-- Strip leading and trailing whitespace; models Python `str.strip()`. -/
def trimChars (l : List Char) : List Char :=
  ((l.dropWhile Char.isWhitespace).reverse.dropWhile Char.isWhitespace).reverse

/-- Substring containment; models Python `sub in s`. -/
def containsSub (sub : List Char) : List Char → Bool
  | [] => sub.isEmpty
  | c :: rest => sub.isPrefixOf (c :: rest) || containsSub sub rest

/-- Remainder after the first occurrence of `sub`; models
`s.split(sub, 1)[1]` (only ever called after a containment check). -/
def afterFirst (sub : List Char) : List Char → List Char
  | [] => []
  | c :: rest =>
    if sub.isPrefixOf (c :: rest) then (c :: rest).drop sub.length
    else afterFirst sub rest

/-- Helper for `titleCase`: upper-case a letter that does not follow a
letter, lower-case the other letters. -/
def titleGo : Bool → List Char → List Char
  | _, [] => []
  | prevAlpha, c :: cs =>
    (if c.isAlpha then (if prevAlpha then c.toLower else c.toUpper) else c)
      :: titleGo c.isAlpha cs

/-- Models Python `str.title()` on ASCII input. -/
def titleCase (l : List Char) : String := (titleGo false l).asString

/-- Profile values are either scalars or lists of strings, mirroring the
JSON values the Python code stores in the profile dict. -/
inductive PVal where
  | s (v : String)
  | l (v : List String)
deriving DecidableEq

/-- A Python dict of profile facts, as an insertion-ordered association
list with unique keys. -/
abbrev FactDict := List (String × PVal)

/-- First-match association-list lookup; models `d.get(k)`. -/
def lookupV : FactDict → String → Option PVal
  | [], _ => none
  | kv :: rest, k => if kv.1 = k then some kv.2 else lookupV rest k

/-- Models Python dict assignment `d[k] = v`: replace the binding in
place when the key exists, append otherwise. -/
def dictSet : FactDict → String → PVal → FactDict
  | [], k, v => [(k, v)]
  | kv :: rest, k, v =>
    if kv.1 = k then (k, v) :: rest else kv :: dictSet rest k v

/-- The existing list value at a key, defaulting to the empty list when
the key is absent or its value is not a list; models the
`existing = profile_data.get(key, []); if not isinstance(existing, list)`
logic of `_store_user_facts`. -/
def existingListAt (p : FactDict) (k : String) : List String :=
  match lookupV p k with
  | some (PVal.l es) => es
  | _ => []

/-- One iteration of the merge loop in `_store_user_facts`: list values
are merged by deduplicated union (`list(set(existing + value))`),
scalars overwrite. -/
def mergeStep (p : FactDict) (kv : String × PVal) : FactDict :=
  match kv.2 with
  | PVal.l vs => dictSet p kv.1 (PVal.l ((existingListAt p kv.1 ++ vs).dedup))
  | PVal.s v => dictSet p kv.1 (PVal.s v)

/-- The profile-merge core of `_store_user_facts`: when the delta is
nonempty, fold the merge over the delta keys and stamp `last_updated`
with the current time. -/
def store_user_facts (profile facts : FactDict) (now : String) : FactDict :=
  if facts.isEmpty then profile
  else dictSet (facts.foldl mergeStep profile) "last_updated" (PVal.s now)

/-- Character class `[a-zA-Z\s]` of the name regexes. -/
def classAlphaSpace (c : Char) : Bool := c.isAlpha || c.isWhitespace

/-- Literal part of the regex `my name is ([a-zA-Z\s]+)`. -/
def patMyName : List Char := "my name is ".data

/-- Literal part of the regex `call me ([a-zA-Z\s]+)`. -/
def patCallMe : List Char := "call me ".data

/-- Models `re.search(lit + "([a-zA-Z\s]+)", s)`: the leftmost position
where the literal matches and at least one class character follows; the
capture is the maximal run of class characters after the literal. -/
def reSearchCapture (pat : List Char) : List Char → Option (List Char)
  | [] => none
  | c :: rest =>
    if pat.isPrefixOf (c :: rest)
        && !(((c :: rest).drop pat.length).takeWhile classAlphaSpace).isEmpty then
      some (((c :: rest).drop pat.length).takeWhile classAlphaSpace)
    else reSearchCapture pat rest

/-- One iteration of the name-pattern loop of `_extract_user_facts`:
on a match whose stripped, title-cased capture is longer than one
character, overwrite the accumulated name; otherwise keep it. -/
def nameStep (ml : List Char) (acc : Option String) (pat : List Char) : Option String :=
  match reSearchCapture pat ml with
  | some cap =>
    if (titleCase (trimChars cap)).length > 1 then some (titleCase (trimChars cap))
    else acc
  | none => acc

/-- The name-pattern loop, unrolled over the two patterns in source
order (the Python loop has no break, so the second pattern runs even
after the first one matched). -/
def extractNameOpt (ml : List Char) : Option String :=
  nameStep ml (nameStep ml none patMyName) patCallMe

/-- The `store this:` detection on the lowered, stripped message. -/
def isStoreThis (ml : List Char) : Bool :=
  ("store this:".data).isPrefixOf ml || ("store this :".data).isPrefixOf ml

/-- The categorization branch of the `store this:` handling in
`_extract_user_facts`, applied to the stripped text after the colon. -/
def storeThisFacts (factText : List Char) : FactDict :=
  if containsSub ("dog".data) factText && containsSub ("name is".data) factText then
    [("pets", PVal.l [titleCase (trimChars (afterFirst ("name is".data) factText))])]
  else if containsSub ("cat".data) factText && containsSub ("name is".data) factText then
    [("pets", PVal.l [titleCase (trimChars (afterFirst ("name is".data) factText))])]
  else if containsSub ("like".data) factText || containsSub ("enjoy".data) factText then
    [("support_preferences", PVal.l
      [(if containsSub ("like".data) factText then
          trimChars (afterFirst ("like".data) factText)
        else trimChars (afterFirst ("enjoy".data) factText)).asString])]
  else [("notes", PVal.l [factText.asString])]

/-- `_extract_user_facts`: lower and strip the message; a `store this:`
message is categorized and returned immediately, otherwise the two
name-declaration patterns are scanned. -/
def extract_user_facts (message : String) : FactDict :=
  let ml := trimChars (listLower message.data)
  if isStoreThis ml then
    storeThisFacts (trimChars (afterFirst ([':']) ml))
  else
    match extractNameOpt ml with
    | some nm => [("name", PVal.s nm)]
    | none => []

/-! ### Vector-collection records and the profile upsert (memory_manager.py) -/

/-- A stored record of a vector collection: id, document text, flat
scalar metadata. -/
structure MRecord where
  id : String
  doc : String
  meta : List (String × String)
deriving DecidableEq

/-- The fixed sentinel id of the single user-profile record. -/
def sentinelId : String := "user_profile_main"

/-- Does the collection hold a record with this id (what the
`get(ids=[profile_id])` existence check observes)? -/
def hasId (c : List MRecord) (i : String) : Bool := c.any (fun r => r.id = i)

/-- Metadata written by `update_user_profile` (id, timestamp, type,
last_updated; none of the values is None, so the None-stripping is a
no-op). -/
def profileMeta (t : String) : List (String × String) :=
  [("id", sentinelId), ("timestamp", t), ("type", "user_profile"), ("last_updated", t)]

/-- In-place overwrite performed by the collection `update` call: the
record carrying the target id gets the new document and metadata, every
other record is untouched. -/
def profileReplace (content t : String) (r : MRecord) : MRecord :=
  if r.id = sentinelId then { id := sentinelId, doc := content, meta := profileMeta t }
  else r

/-- `update_user_profile`: check existence by the sentinel id; when
present, overwrite the record in place with a single update call; when
absent, add a fresh record. `content` is the JSON-serialized profile and
`t` the current timestamp, both passed in explicitly. -/
def update_user_profile (c : List MRecord) (content : String) (t : String) : List MRecord :=
  if hasId c sentinelId then c.map (profileReplace content t)
  else c ++ [{ id := sentinelId, doc := content, meta := profileMeta t }]

/-- Number of records carrying the sentinel profile id. -/
def countSentinel (c : List MRecord) : Nat :=
  (c.filter (fun r => r.id = sentinelId)).length

/-! ### Cross-collection relevance ranking (get_relevant_memories) -/

/-- One similarity hit returned by a collection query: document text and
distance (lower is more similar). Distances are modelled as rationals. -/
structure QHit where
  content : String
  distance : ℚ
deriving DecidableEq

/-- A hit tagged with the name of its source collection. -/
structure TaggedHit where
  collection : String
  content : String
  distance : ℚ
deriving DecidableEq

/-- Comparison key of the final sort: ascending distance. -/
def hitLE (a b : TaggedHit) : Prop := a.distance ≤ b.distance

instance : DecidableRel hitLE := fun a b => inferInstanceAs (Decidable (a.distance ≤ b.distance))

instance : IsTotal TaggedHit hitLE := ⟨fun a b => le_total a.distance b.distance⟩

instance : IsTrans TaggedHit hitLE := ⟨fun _ _ _ h₁ h₂ => le_trans h₁ h₂⟩

/-- Tag every hit of one collection with that collection's name. -/
def tagHits (name : String) (l : List QHit) : List TaggedHit :=
  l.map (fun h => { collection := name, content := h.content, distance := h.distance })

/-- The union built by `get_relevant_memories`: each of the three
collections is queried independently for its top `min n 3` hits
(a collection query with `n_results = k` returns the first `k` of that
collection's ranked hit list), and every hit is tagged with its source
collection, in the fixed source order of the loop. -/
def memoryPool (refl imp prof : List QHit) (n : Nat) : List TaggedHit :=
  tagHits "reflections" (refl.take (min n 3))
    ++ tagHits "important_memories" (imp.take (min n 3))
    ++ tagHits "user_profile" (prof.take (min n 3))

/-- `get_relevant_memories`: build the tagged union, sort it by
ascending distance with Python's stable sort (modelled by the stable
`List.insertionSort`), and truncate to `n`. -/
def get_relevant_memories (refl imp prof : List QHit) (n : Nat) : List TaggedHit :=
  (List.insertionSort hitLE (memoryPool refl imp prof n)).take n

/-! ### Tasks (task_manager.py) -/

/-- The mutable fields of a stored task touched by `update_task`,
plus its bookkeeping timestamps. -/
structure TaskState where
  title : String
  description : String
  priority : String
  category : String
  status : String
  due_date : Option String
  wellness_impact : String
  created_at : String
  completed_at : Option String
  updated_at : Option String
deriving DecidableEq

/-- The allow-list of updatable fields in `update_task`. -/
def allowedUpdates : List String :=
  ["title", "description", "priority", "category", "status", "due_date", "wellness_impact"]

/-- Assign one allow-listed field of the task dict (`task[key] = value`). -/
def setTaskField (t : TaskState) (k v : String) : TaskState :=
  if k = "title" then { t with title := v }
  else if k = "description" then { t with description := v }
  else if k = "priority" then { t with priority := v }
  else if k = "category" then { t with category := v }
  else if k = "status" then { t with status := v }
  else if k = "due_date" then { t with due_date := some v }
  else if k = "wellness_impact" then { t with wellness_impact := v }
  else t

/-- One iteration of the update loop of `update_task`: an allow-listed
key is applied; the transition into `completed` from a non-completed
state additionally stamps `completed_at` with the current time. -/
def applyTaskUpdate (now : String) (t : TaskState) (kv : String × String) : TaskState :=
  if kv.1 ∈ allowedUpdates then
    setTaskField
      (if kv.1 = "status" ∧ kv.2 = "completed" ∧ t.status ≠ "completed" then
        { t with completed_at := some now }
      else t)
      kv.1 kv.2
  else t

/-- `update_task` applied to a found task: fold the updates in order,
then stamp `updated_at`. -/
def update_task (t : TaskState) (updates : List (String × String)) (now : String) : TaskState :=
  { updates.foldl (applyTaskUpdate now) t with updated_at := some now }

/-- Modelled from the spec: the delete operation of the underlying
vector-collection store (ChromaDB, a vendor library whose code is not in
src/). Per the error taxonomy, deleting an id that is absent raises
`NotFoundError`; deleting a present id removes its record durably. -/
def colDelete (c : List MRecord) (i : String) : Except String (List MRecord) :=
  if hasId c i then Except.ok (c.filter (fun r => decide (r.id ≠ i)))
  else Except.error "not found"

/-- `delete_task`: delegate to the collection delete and convert any
storage exception into a `False` return instead of propagating it. -/
def delete_task (c : List MRecord) (task_id : String) : Bool × List MRecord :=
  match colDelete c task_id with
  | Except.ok c₂ => (true, c₂)
  | Except.error _ => (false, c)

/-- Keys of the `priority_levels` table of `TaskManager`. -/
def priorityLevelsKeys : List String := ["low", "medium", "high", "urgent"]

/-- Keys of the `task_categories` table of `TaskManager` (the 10 fixed
wellness categories). -/
def taskCategoriesKeys : List String :=
  ["self_care", "mindfulness", "exercise", "social", "work",
   "personal", "health", "learning", "creative", "household"]

/-- The `tag_keywords` table of `_extract_tags`. -/
def tagKeywords : List (String × List String) :=
  [("exercise", ["exercise", "workout", "gym", "run", "walk", "bike"]),
   ("meditation", ["meditate", "mindfulness", "breathe", "calm"]),
   ("social", ["call", "meet", "friend", "family", "visit"]),
   ("creative", ["draw", "write", "paint", "music", "create"]),
   ("learning", ["study", "learn", "read", "course", "skill"]),
   ("health", ["doctor", "appointment", "medicine", "therapy"]),
   ("urgent", ["urgent", "asap", "deadline", "important"]),
   ("relaxing", ["relax", "rest", "sleep", "break", "vacation"])]

/-- `_extract_tags`: a tag applies when any of its keywords occurs in
the lower-cased task text. -/
def extract_tags (text : String) : List String :=
  (tagKeywords.filter
    (fun kw => kw.2.any (fun k => containsSub k.data (listLower text.data)))).map (fun kw => kw.1)

/-- `_estimate_effort` keyword tables and decision. -/
def estimate_effort (title description : String) : String :=
  let text := listLower ((title ++ " " ++ description).data)
  if (["project", "complete", "finish", "major", "big", "complex"] : List String).any
      (fun k => containsSub k.data text) then "high"
  else if (["quick", "simple", "easy", "call", "email", "check"] : List String).any
      (fun k => containsSub k.data text) then "low"
  else "medium"

/-- Apostrophe-as-string, for suggestion texts containing contractions. -/
def aposStr : String := aposChar.toString

/-- The `category_suggestions` table of `_generate_wellness_suggestions`. -/
def categorySuggestions : List (String × List String) :=
  [("self_care",
    ["Set a peaceful environment before starting",
     "Practice self-compassion throughout",
     "Celebrate completing this self-care activity"]),
   ("work",
    ["Take breaks every hour",
     "Practice deep breathing if you feel stressed",
     "Remember that your worth isn" ++ aposStr ++ "t tied to productivity"]),
   ("exercise",
    ["Start slowly and listen to your body",
     "Focus on how movement makes you feel",
     "Celebrate any movement, no matter how small"]),
   ("social",
    ["Be present and engaged",
     "Practice active listening",
     "It" ++ aposStr ++ "s okay if social interactions feel challenging"])]

/-- `_generate_wellness_suggestions`: category suggestions extended by
wellness-impact suggestions, truncated to the top 3. -/
def generate_wellness_suggestions (category wellness_impact : String) : List String :=
  ((match categorySuggestions.find? (fun kv => decide (kv.1 = category)) with
    | some kv => kv.2
    | none => [])
   ++ (if wellness_impact = "challenging" then
        ["Break this task into smaller, manageable steps",
         "Plan a self-care activity for after completion",
         "Remember it" ++ aposStr ++ "s okay to ask for help"]
      else if wellness_impact = "positive" then
        ["Savor the positive feelings this task brings",
         "Notice how accomplishing this improves your mood"]
      else [])).take 3

/-- A freshly created task, with the fields `add_task` fills in. -/
structure NewTask where
  id : String
  title : String
  description : String
  priority : String
  category : String
  wellness_impact : String
  status : String
  created_at : String
  due_date : Option String
  completed_at : Option String
  tags : List String
  estimated_effort : String
  wellness_suggestions : List String
deriving DecidableEq

/-- `add_task` for a call without a due date (the Python default
`due_date=None` leaves `parsed_due_date = None`); the generated UUID and
the current timestamp are passed in explicitly. An out-of-table priority
is silently replaced by `"medium"` and an out-of-table category by
`"personal"`; the wellness-suggestion helper receives the original
`category` argument, as in the source. The returned Bool is the
`success` flag of the result dict. -/
def add_task (taskId now title description priority category wellness_impact : String) :
    Bool × NewTask :=
  (true,
   { id := taskId
     title := (trimChars title.data).asString
     description := (trimChars description.data).asString
     priority := if priority ∈ priorityLevelsKeys then priority else "medium"
     category := if category ∈ taskCategoriesKeys then category else "personal"
     wellness_impact := wellness_impact
     status := "pending"
     created_at := now
     due_date := none
     completed_at := none
     tags := extract_tags (title ++ " " ++ description)
     estimated_effort := estimate_effort title description
     wellness_suggestions := generate_wellness_suggestions category wellness_impact })

/-! ### Mood parsing and bulk reads (mood_tracker.py) -/

/-- A mood input is either a Python number (int or float, modelled as a
rational) or a string. -/
inductive MoodInput where
  | num (q : ℚ)
  | str (s : String)

/-- Python `int()` truncation toward zero on a rational. -/
def truncQ (q : ℚ) : ℤ := if 0 ≤ q then Int.floor q else Int.ceil q

/-- Value of a digit list read in base 10. -/
def digitsToNat (l : List Char) : Nat :=
  l.foldl (fun n c => 10 * n + (c.toNat - 48)) 0

/-- Models Python `float(s)` restricted to unsigned decimal literals
(digits with an optional single decimal point); all other strings are
parse failures, as they are for the inputs exercised here. -/
def parseNumStr (l : List Char) : Option ℚ :=
  let ip := l.takeWhile Char.isDigit
  match l.drop ip.length with
  | [] => if ip.isEmpty then none else some (digitsToNat ip)
  | c :: frac =>
    if c = '.' ∧ frac.all Char.isDigit ∧ (ip ≠ [] ∨ frac ≠ []) then
      some ((digitsToNat ip : ℚ) + (digitsToNat frac : ℚ) / ((10 : ℚ) ^ frac.length))
    else none

/-- The `mood_values` table (1-10 scale). -/
def moodValues : List (String × ℤ) :=
  [("terrible", 1), ("very_bad", 2), ("bad", 3), ("poor", 4), ("okay", 5),
   ("good", 6), ("very_good", 7), ("great", 8), ("excellent", 9), ("amazing", 10)]

/-- `mood_values.get(mood_str)`. -/
def lookupMoodLabel (s : String) : Option ℤ :=
  (moodValues.find? (fun kv => decide (kv.1 = s))).map (fun kv => kv.2)

/-- `_parse_mood_value`: numbers are truncated and range-checked to
1..10; strings are lowered and stripped, tried as a numeric literal
(truncated and range-checked), then looked up as a mood label; anything
else yields None. -/
def parse_mood_value : MoodInput → Option ℤ
  | MoodInput.num q =>
    if 1 ≤ truncQ q ∧ truncQ q ≤ 10 then some (truncQ q) else none
  | MoodInput.str s =>
    let ms := trimChars (listLower s.data)
    match parseNumStr ms with
    | some q => if 1 ≤ truncQ q ∧ truncQ q ≤ 10 then some (truncQ q) else none
    | none => lookupMoodLabel ms.asString

/-- The caller-visible outcome of `log_mood` as far as validation is
concerned. -/
structure LogMoodResult where
  success : Bool
  mood_value : Option ℤ
  error : Option String
deriving DecidableEq

/-- The validation path of `log_mood`: an unparseable mood value yields
the structured failure dict `\x7bsuccess: False, error: "Invalid mood
value"\x7d` instead of an exception; a parsed value is logged with
`success: True`. -/
def log_mood (mood : MoodInput) : LogMoodResult :=
  match parse_mood_value mood with
  | none => { success := false, mood_value := none, error := some "Invalid mood value" }
  | some v => { success := true, mood_value := some v, error := none }

/-- A stored mood document as seen by a bulk read: either it fails to
deserialize (malformed JSON or a bad timestamp, both caught by the same
per-document handler) or it carries a timestamp and a payload. -/
inductive StoredMoodDoc where
  | malformed
  | entry (time : ℚ) (payload : String)
deriving DecidableEq

/-- Per-document step of `_get_mood_entries_in_range`: a document that
deserializes and whose timestamp lies in the window is kept; a malformed
document is skipped individually; an out-of-window document is dropped. -/
def decodeMoodDoc (a b : ℚ) : StoredMoodDoc → Option (ℚ × String)
  | StoredMoodDoc.malformed => none
  | StoredMoodDoc.entry t s => if a ≤ t ∧ t ≤ b then some (t, s) else none

/-- Ascending-timestamp comparison for the final sort. -/
def entryLE (x y : ℚ × String) : Prop := x.1 ≤ y.1

instance : DecidableRel entryLE := fun x y => inferInstanceAs (Decidable (x.1 ≤ y.1))

instance : IsTotal (ℚ × String) entryLE := ⟨fun x y => le_total x.1 y.1⟩

instance : IsTrans (ℚ × String) entryLE := ⟨fun _ _ _ h₁ h₂ => le_trans h₁ h₂⟩

/-- `_get_mood_entries_in_range`: decode every stored document
individually, keep the in-window ones, and sort by timestamp. -/
def get_mood_entries_in_range (docs : List StoredMoodDoc) (a b : ℚ) : List (ℚ × String) :=
  List.insertionSort entryLE (docs.filterMap (decodeMoodDoc a b))

/-- The spec example message `Store this: my dog's name is Bruno`
(apostrophe spliced in). -/
def storeDogMsg : String :=
  "Store this: my dog" ++ aposChar.toString ++ "s name is Bruno"

/-- A message matching both name-declaration patterns with two distinct
valid names. -/
def nameMsg : String := "My name is Anna, call me Bee"

/-! ## Dictionary lemmas for the profile merge -/

theorem lookupV_dictSet_self (p : FactDict) (k : String) (v : PVal) :
    lookupV (dictSet p k v) k = some v := by
  induction p with
  | nil => simp [dictSet, lookupV]
  | cons kv rest ih =>
    by_cases h : kv.1 = k
    · simp [dictSet, h, lookupV]
    · simp [dictSet, h, lookupV, ih]

theorem lookupV_dictSet_ne (p : FactDict) {k k' : String} (h : k' ≠ k) (v : PVal) :
    lookupV (dictSet p k' v) k = lookupV p k := by
  induction p with
  | nil => simp [dictSet, lookupV, h]
  | cons kv rest ih =>
    by_cases hkv : kv.1 = k'
    · simp [dictSet, hkv, lookupV, h, hkv ▸ h]
    · simp only [dictSet, hkv, if_false, lookupV]
      by_cases hk : kv.1 = k
      · simp [hk]
      · simp [hk, ih]

theorem lookupV_mergeStep_ne (p : FactDict) {k : String} (kv : String × PVal)
    (h : kv.1 ≠ k) : lookupV (mergeStep p kv) k = lookupV p k := by
  cases kv with
  | mk k' v =>
    cases v with
    | s w => exact lookupV_dictSet_ne p h _
    | l ws => exact lookupV_dictSet_ne p h _

theorem existingListAt_congr {p p' : FactDict} {k : String}
    (h : lookupV p' k = lookupV p k) : existingListAt p' k = existingListAt p k := by
  unfold existingListAt
  rw [h]

theorem lookupV_foldl_mergeStep_not_mem (facts : FactDict) (p : FactDict) (k : String)
    (h : ∀ kv ∈ facts, kv.1 ≠ k) :
    lookupV (facts.foldl mergeStep p) k = lookupV p k := by
  induction facts generalizing p with
  | nil => rfl
  | cons kv rest ih =>
    rw [List.foldl_cons, ih _ (fun kv' hkv' => h kv' (List.mem_cons_of_mem _ hkv')),
      lookupV_mergeStep_ne p kv (h kv (List.mem_cons_self _ _))]

theorem lookupV_foldl_mergeStep_of_mem (facts : FactDict) (p : FactDict)
    (k : String) (vs : List String)
    (hnd : (facts.map Prod.fst).Nodup) (hmem : (k, PVal.l vs) ∈ facts) :
    lookupV (facts.foldl mergeStep p) k
      = some (PVal.l ((existingListAt p k ++ vs).dedup)) := by
  induction facts generalizing p with
  | nil => cases hmem
  | cons kv rest ih =>
    rw [List.map_cons, List.nodup_cons] at hnd
    rcases List.mem_cons.1 hmem with heq | hrest
    · subst heq
      rw [List.foldl_cons]
      have hnot : ∀ kv' ∈ rest, kv'.1 ≠ k := by
        intro kv' hkv' hk
        have h1 : kv'.1 ∈ rest.map Prod.fst := List.mem_map_of_mem Prod.fst hkv'
        rw [hk] at h1
        exact hnd.1 h1
      rw [lookupV_foldl_mergeStep_not_mem rest _ k hnot]
      show lookupV (dictSet p k (PVal.l ((existingListAt p k ++ vs).dedup))) k = _
      exact lookupV_dictSet_self p k _
    · have hne : kv.1 ≠ k := by
        intro hk
        exact hnd.1 (hk ▸ List.mem_map_of_mem Prod.fst hrest)
      rw [List.foldl_cons,
        ih (mergeStep p kv) hnd.2 hrest,
        existingListAt_congr (lookupV_mergeStep_ne p kv hne)]

/-- C2: for every existing profile and fact delta, a list-valued delta
key is written back as exactly the deduplicated set union of the
existing list (empty when absent or non-list) and the delta list; in
particular merging pets ["Bruno"] with pets ["Bruno","Whiskers"] yields
a duplicate-free list whose element set is exactly that pair. -/
theorem list_merge_is_dedup_union :
    (∀ (profile facts : FactDict) (now k : String) (vs : List String),
      (facts.map Prod.fst).Nodup →
      (k, PVal.l vs) ∈ facts →
      k ≠ "last_updated" →
      lookupV (store_user_facts profile facts now) k
          = some (PVal.l ((existingListAt profile k ++ vs).dedup))
        ∧ ((existingListAt profile k ++ vs).dedup).Nodup
        ∧ ((existingListAt profile k ++ vs).dedup).toFinset
            = (existingListAt profile k).toFinset ∪ vs.toFinset)
    ∧ lookupV (store_user_facts [("pets", PVal.l ["Bruno"])]
          [("pets", PVal.l ["Bruno", "Whiskers"])] "T0") "pets"
        = some (PVal.l ["Bruno", "Whiskers"])
    ∧ (["Bruno", "Whiskers"] : List String).Nodup := by
  refine ⟨fun profile facts now k vs hnd hmem hlu => ⟨?_, List.nodup_dedup _, ?_⟩, by decide, by decide⟩
  · have hne : facts.isEmpty = false := by
      cases facts
      · cases hmem
      · rfl
    rw [store_user_facts, hne, if_neg (by simp),
      lookupV_dictSet_ne _ (fun h => hlu h.symm) _]
    exact lookupV_foldl_mergeStep_of_mem facts profile k vs hnd hmem
  · ext x
    simp [List.mem_dedup]

/-- Witness for `list_merge_is_dedup_union` at the pets example of the
spec. -/
theorem list_merge_is_dedup_union_witness :
    lookupV (store_user_facts [("pets", PVal.l ["Bruno"])]
        [("pets", PVal.l ["Bruno", "Whiskers"])] "T0") "pets"
      = some (PVal.l ((existingListAt [("pets", PVal.l ["Bruno"])] "pets"
          ++ ["Bruno", "Whiskers"]).dedup)) :=
  (list_merge_is_dedup_union.1 [("pets", PVal.l ["Bruno"])]
    [("pets", PVal.l ["Bruno", "Whiskers"])] "T0" "pets" ["Bruno", "Whiskers"]
    (by decide) (by decide) (by decide)).1

/-! ## Profile upsert lemmas -/

theorem profileReplace_id (content t : String) (r : MRecord) :
    (profileReplace content t r).id = r.id := by
  unfold profileReplace
  split_ifs with h
  · exact h.symm
  · rfl

theorem hasId_map_profileReplace (c : List MRecord) (content t i : String) :
    hasId (c.map (profileReplace content t)) i = hasId c i := by
  induction c with
  | nil => rfl
  | cons r rest ih =>
    simp only [List.map_cons, hasId, List.any_cons] at *
    rw [profileReplace_id]
    by_cases h : r.id = i
    · simp [h]
    · simp only [h, decide_False, Bool.false_or]
      exact ih

theorem countSentinel_map_profileReplace (c : List MRecord) (content t : String) :
    countSentinel (c.map (profileReplace content t)) = countSentinel c := by
  induction c with
  | nil => rfl
  | cons r rest ih =>
    simp only [List.map_cons, countSentinel, List.filter_cons] at *
    rw [profileReplace_id]
    by_cases h : r.id = sentinelId
    · simp [h, ih]
    · simp [h, ih]

theorem countSentinel_append_single (c : List MRecord) (r : MRecord) :
    countSentinel (c ++ [r]) = countSentinel c + (if r.id = sentinelId then 1 else 0) := by
  simp only [countSentinel, List.filter_append, List.length_append]
  by_cases h : r.id = sentinelId
  · simp [h, List.filter_cons]
  · simp [h, List.filter_cons]

theorem countSentinel_eq_zero_of_not_hasId {c : List MRecord}
    (h : hasId c sentinelId = false) : countSentinel c = 0 := by
  induction c with
  | nil => rfl
  | cons r rest ih =>
    simp only [hasId, List.any_cons, Bool.or_eq_false_iff, decide_eq_false_iff_not] at h
    simp only [countSentinel, List.filter_cons, h.1, decide_False]
    exact ih (by simp only [hasId]; exact h.2)

theorem one_le_countSentinel_of_hasId {c : List MRecord}
    (h : hasId c sentinelId = true) : 1 ≤ countSentinel c := by
  induction c with
  | nil => cases h
  | cons r rest ih =>
    simp only [hasId, List.any_cons, Bool.or_eq_true, decide_eq_true_eq] at h
    simp only [countSentinel, List.filter_cons]
    by_cases hr : r.id = sentinelId
    · simp [hr]
    · simp only [hr, decide_False]
      exact ih (by simp only [hasId]; exact h.resolve_left hr)

theorem countSentinel_update {c : List MRecord} (content t : String)
    (h : countSentinel c ≤ 1) :
    countSentinel (update_user_profile c content t) = 1 := by
  by_cases hc : hasId c sentinelId
  · rw [update_user_profile, if_pos hc, countSentinel_map_profileReplace]
    exact le_antisymm h (one_le_countSentinel_of_hasId hc)
  · rw [update_user_profile, if_neg hc, countSentinel_append_single,
      countSentinel_eq_zero_of_not_hasId (Bool.of_not_eq_true hc)]
    rfl

theorem hasId_update (c : List MRecord) (content t : String) :
    hasId (update_user_profile c content t) sentinelId = true := by
  by_cases hc : hasId c sentinelId
  · rw [update_user_profile, if_pos hc, hasId_map_profileReplace]
    exact hc
  · rw [update_user_profile, if_neg hc]
    simp [hasId]

/-- C1: from any state holding at most one profile record, calling
`update_user_profile` twice in a row leaves exactly one record with the
sentinel id; the second call is an in-place overwrite of that record (a
map over the collection, so no record is appended and the length is
unchanged); and from an empty collection the final state is the single
sentinel record. -/
theorem profile_upsert_single_record :
    (∀ (c : List MRecord) (content t₁ t₂ : String),
      countSentinel c ≤ 1 →
      countSentinel (update_user_profile (update_user_profile c content t₁) content t₂) = 1
      ∧ update_user_profile (update_user_profile c content t₁) content t₂
          = (update_user_profile c content t₁).map (profileReplace content t₂)
      ∧ (update_user_profile (update_user_profile c content t₁) content t₂).length
          = (update_user_profile c content t₁).length)
    ∧ ∀ (content t₁ t₂ : String),
      update_user_profile (update_user_profile [] content t₁) content t₂
        = [{ id := sentinelId, doc := content, meta := profileMeta t₂ }] := by
  constructor
  · intro c content t₁ t₂ h
    have h1 : countSentinel (update_user_profile c content t₁) = 1 :=
      countSentinel_update content t₁ h
    have hh : hasId (update_user_profile c content t₁) sentinelId = true :=
      hasId_update c content t₁
    refine ⟨countSentinel_update content t₂ (le_of_eq h1), ?_, ?_⟩
    · rw [update_user_profile, if_pos hh]
    · rw [update_user_profile, if_pos hh, List.length_map]
  · intro content t₁ t₂
    rfl

/-- Witness for `profile_upsert_single_record` starting from the empty
collection. -/
theorem profile_upsert_single_record_witness :
    countSentinel (update_user_profile (update_user_profile [] "P" "T1") "P" "T2") = 1 :=
  (profile_upsert_single_record.1 [] "P" "T1" "T2" (by decide)).1

/-! ## Stability of the relevance sort -/

theorem filter_orderedInsert_of_const_dist (q : TaggedHit → Bool) (d : ℚ)
    (hq : ∀ x, q x = true → x.distance = d) (a : TaggedHit) :
    ∀ l : List TaggedHit,
      (List.orderedInsert hitLE a l).filter q
        = if q a then a :: l.filter q else l.filter q := by
  intro l
  induction l with
  | nil => simp [List.filter_cons]
  | cons b t ih =>
    rw [List.orderedInsert]
    by_cases hab : hitLE a b
    · rw [if_pos hab]
      by_cases hqa : q a
      · simp [List.filter_cons, hqa]
      · simp [List.filter_cons, hqa]
    · rw [if_neg hab]
      have hblt : b.distance < a.distance := lt_of_not_le hab
      by_cases hqa : q a
      · have hqb : q b = false := by
          rcases Bool.eq_false_or_eq_true (q b) with hb | hb
          · exact absurd (hq a hqa ▸ hq b hb ▸ hblt) (lt_irrefl _)
          · exact hb
        simp [List.filter_cons, hqa, hqb, ih]
      · simp [List.filter_cons, hqa, ih]

theorem filter_insertionSort_of_const_dist (q : TaggedHit → Bool) (d : ℚ)
    (hq : ∀ x, q x = true → x.distance = d) :
    ∀ l : List TaggedHit,
      (List.insertionSort hitLE l).filter q = l.filter q := by
  intro l
  induction l with
  | nil => rfl
  | cons a t ih =>
    rw [List.insertionSort, filter_orderedInsert_of_const_dist q d hq a]
    by_cases hqa : q a
    · simp [List.filter_cons, hqa, ih]
    · simp [List.filter_cons, hqa, ih]

/-- C3: `get_relevant_memories` takes up to `min n 3` hits from each of
the three collections, tags them with their source, globally sorts the
tagged union by ascending distance with a stable sort (hits of equal
distance and equal source keep their per-collection order, expressed as
the filter over any equal-distance class being preserved), and truncates
to `n`; on the three-collection example with distances 0.9, 0.2, 0.5 and
`n = 2`, it returns exactly the 0.2 and 0.5 hits, in that order. -/
theorem relevance_ranking :
    (∀ (refl imp prof : List QHit) (n : Nat),
      get_relevant_memories refl imp prof n
        = (List.insertionSort hitLE (memoryPool refl imp prof n)).take n)
    ∧ (∀ (refl imp prof : List QHit) (n : Nat),
        List.Sorted hitLE (List.insertionSort hitLE (memoryPool refl imp prof n)))
    ∧ (∀ (refl imp prof : List QHit) (n : Nat) (name : String) (d : ℚ),
        (List.insertionSort hitLE (memoryPool refl imp prof n)).filter
            (fun h => decide (h.collection = name ∧ h.distance = d))
          = (memoryPool refl imp prof n).filter
            (fun h => decide (h.collection = name ∧ h.distance = d)))
    ∧ get_relevant_memories
        [{ content := "r", distance := (9 : ℚ)/10 }]
        [{ content := "i", distance := (2 : ℚ)/10 }]
        [{ content := "p", distance := (5 : ℚ)/10 }] 2
      = [{ collection := "important_memories", content := "i", distance := (2 : ℚ)/10 },
         { collection := "user_profile", content := "p", distance := (5 : ℚ)/10 }] := by
  refine ⟨fun _ _ _ _ => rfl,
    fun refl imp prof n => List.sorted_insertionSort hitLE _,
    fun refl imp prof n name d =>
      filter_insertionSort_of_const_dist _ d (fun x hx => (of_decide_eq_true hx).2) _,
    by norm_num [get_relevant_memories, memoryPool, tagHits, List.insertionSort,
      List.orderedInsert, hitLE]⟩

/-! ## Fact extraction: store-this short circuit and the name loop -/

theorem lookupV_storeThisFacts_name (ft : List Char) :
    lookupV (storeThisFacts ft) "name" = none := by
  unfold storeThisFacts
  split_ifs <;> simp [lookupV]

/-- C5: a message whose lowered, trimmed form starts with `store this:`
(or `store this :`) is handled entirely by the store-this branch — the
returned delta is the store-this categorization of the text after the
colon, and the name-declaration scan never runs, so no `name` key is
produced; in particular the dog example yields exactly
`pets = ["Bruno"]`. -/
theorem store_this_short_circuits :
    (∀ message : String,
      isStoreThis (trimChars (listLower message.data)) = true →
      extract_user_facts message
          = storeThisFacts (trimChars (afterFirst ([':']) (trimChars (listLower message.data))))
        ∧ lookupV (extract_user_facts message) "name" = none)
    ∧ extract_user_facts storeDogMsg = [("pets", PVal.l ["Bruno"])] := by
  constructor
  · intro message h
    have he : extract_user_facts message
        = storeThisFacts (trimChars (afterFirst ([':']) (trimChars (listLower message.data)))) := by
      unfold extract_user_facts
      dsimp only
      rw [h]
      simp
    exact ⟨he, he ▸ lookupV_storeThisFacts_name _⟩
  · decide

/-- Witness for `store_this_short_circuits` at the dog example. -/
theorem store_this_short_circuits_witness :
    extract_user_facts storeDogMsg
        = storeThisFacts (trimChars (afterFirst ([':'])
            (trimChars (listLower storeDogMsg.data))))
      ∧ lookupV (extract_user_facts storeDogMsg) "name" = none :=
  store_this_short_circuits.1 storeDogMsg (by decide)

/-- C4 counterexample: on `nameMsg` both name patterns match — the
`my name is` pattern captures `anna` and the `call me` pattern captures
`bee`, each longer than one character after trimming and title-casing —
yet the extracted delta holds the `call me` name `Bee`, not the
`my name is` name `Anna`: the later pattern overwrites the earlier one,
contradicting the claim that the first pattern wins. -/
theorem name_first_pattern_wins_counterexample :
    reSearchCapture patMyName (trimChars (listLower nameMsg.data)) = some ("anna".data)
    ∧ reSearchCapture patCallMe (trimChars (listLower nameMsg.data)) = some ("bee".data)
    ∧ titleCase (trimChars ("anna".data)) = "Anna"
    ∧ titleCase (trimChars ("bee".data)) = "Bee"
    ∧ ("Anna" : String).length > 1 ∧ ("Bee" : String).length > 1
    ∧ extract_user_facts nameMsg = [("name", PVal.s "Bee")]
    ∧ ("Bee" : String) ≠ "Anna" := by
  decide

/-- C4 amended: the name-pattern loop has no break, so each matching
pattern whose trimmed, title-cased capture is longer than one character
overwrites `name`; the LAST matching pattern (`call me`) wins, not the
first. -/
theorem name_last_pattern_wins :
    ∀ (message : String) (cap : List Char),
      isStoreThis (trimChars (listLower message.data)) = false →
      reSearchCapture patCallMe (trimChars (listLower message.data)) = some cap →
      (titleCase (trimChars cap)).length > 1 →
      extract_user_facts message = [("name", PVal.s (titleCase (trimChars cap)))] := by
  intro message cap hstore hsearch hlen
  unfold extract_user_facts
  dsimp only
  rw [hstore]
  simp only [Bool.false_eq_true, if_false]
  unfold extractNameOpt
  conv_lhs => rw [nameStep, hsearch]
  dsimp only
  rw [if_pos hlen]

/-- Witness for `name_last_pattern_wins` at `nameMsg`. -/
theorem name_last_pattern_wins_witness :
    extract_user_facts nameMsg = [("name", PVal.s (titleCase (trimChars ("bee".data))))] :=
  name_last_pattern_wins nameMsg ("bee".data) (by decide) (by decide) (by decide)

/-! ## Task completion stamping and deletion -/

theorem update_task_complete_eq (t : TaskState) (now : String)
    (h : t.status ≠ "completed") :
    update_task t [("status", "completed")] now
      = { t with completed_at := some now, status := "completed", updated_at := some now } := by
  unfold update_task
  rw [List.foldl_cons, List.foldl_nil]
  unfold applyTaskUpdate
  rw [if_pos (show ("status", "completed").1 ∈ allowedUpdates by decide),
    if_pos ⟨rfl, rfl, h⟩]
  rfl

theorem update_task_complete_again_eq (t : TaskState) (now : String)
    (h : t.status = "completed") :
    update_task t [("status", "completed")] now
      = { t with status := "completed", updated_at := some now } := by
  unfold update_task
  rw [List.foldl_cons, List.foldl_nil]
  unfold applyTaskUpdate
  rw [if_pos (show ("status", "completed").1 ∈ allowedUpdates by decide),
    if_neg (fun hc => hc.2.2 h)]
  rfl

/-- C6: updating a non-completed task with `status=completed` stamps
`completed_at` with the current time, and re-issuing the same update is
idempotent on the stamp: the second update leaves `completed_at` at the
first stamp, so it is set exactly once, on the transition into
`completed`. -/
theorem task_completion_stamps_once :
    ∀ (t : TaskState) (t₁ t₂ : String),
      t.status ≠ "completed" →
      (update_task t [("status", "completed")] t₁).completed_at = some t₁
      ∧ (update_task t [("status", "completed")] t₁).status = "completed"
      ∧ (update_task (update_task t [("status", "completed")] t₁)
          [("status", "completed")] t₂).completed_at = some t₁ := by
  intro t t₁ t₂ h
  rw [update_task_complete_eq t t₁ h]
  refine ⟨rfl, rfl, ?_⟩
  rw [update_task_complete_again_eq _ t₂ rfl]

/-- Witness for `task_completion_stamps_once` on a concrete pending
task. -/
theorem task_completion_stamps_once_witness :
    (update_task
        { title := "Meditate", description := "", priority := "medium",
          category := "self_care", status := "pending", due_date := none,
          wellness_impact := "positive", created_at := "T0",
          completed_at := none, updated_at := none }
        [("status", "completed")] "T1").completed_at = some "T1"
    ∧ (update_task (update_task
        { title := "Meditate", description := "", priority := "medium",
          category := "self_care", status := "pending", due_date := none,
          wellness_impact := "positive", created_at := "T0",
          completed_at := none, updated_at := none }
        [("status", "completed")] "T1") [("status", "completed")] "T2").completed_at
      = some "T1" :=
  ⟨(task_completion_stamps_once _ "T1" "T2" (by decide)).1,
   (task_completion_stamps_once _ "T1" "T2" (by decide)).2.2⟩

theorem hasId_filter_ne (c : List MRecord) (i : String) :
    hasId (c.filter (fun r => decide (r.id ≠ i))) i = false := by
  rw [hasId, List.any_eq_false]
  intro r hr
  rw [List.mem_filter, decide_eq_true_eq] at hr
  simpa using hr.2

/-- C7: deleting a task id that is absent from the collection is
reported as failure (the result flag is `false` and the collection is
unchanged — the storage exception does not escape `delete_task`), while
deleting a present id succeeds and removes the record unconditionally. -/
theorem delete_task_absent_reports_failure :
    ∀ (c : List MRecord) (i : String),
      (hasId c i = false → delete_task c i = (false, c))
      ∧ (hasId c i = true →
          (delete_task c i).1 = true ∧ hasId (delete_task c i).2 i = false) := by
  intro c i
  constructor
  · intro h
    unfold delete_task colDelete
    rw [h]
    simp
  · intro h
    unfold delete_task colDelete
    rw [h]
    exact ⟨rfl, hasId_filter_ne c i⟩

/-- Witness for `delete_task_absent_reports_failure`: a singleton
collection, probed with an absent and a present id. -/
theorem delete_task_absent_reports_failure_witness :
    delete_task [{ id := "t1", doc := "d", meta := [] }] "zz"
        = (false, [{ id := "t1", doc := "d", meta := [] }])
    ∧ (delete_task [{ id := "t1", doc := "d", meta := [] }] "t1").1 = true :=
  ⟨(delete_task_absent_reports_failure [{ id := "t1", doc := "d", meta := [] }] "zz").1
      (by decide),
   ((delete_task_absent_reports_failure [{ id := "t1", doc := "d", meta := [] }] "t1").2
      (by decide)).1⟩

/-! ## Mood parsing, bulk reads, task creation -/

theorem truncQ_eleven : truncQ (11 : ℚ) = 11 := by
  unfold truncQ
  rw [if_pos (by norm_num)]
  norm_num

theorem truncQ_seven_point_nine : truncQ ((79 : ℚ) / 10) = 7 := by
  unfold truncQ
  rw [if_pos (by norm_num)]
  rw [Int.floor_eq_iff]
  norm_num

/-- C8: mood parsing maps the label `great` to 8 and the numeric string
`7` to 7, truncates the number 7.9 to 7, and rejects any number whose
truncation falls outside 1..10 (such as 11) and any unrecognized string
(such as `invalid`) with the structured failure result of `log_mood`
rather than an exception. -/
theorem mood_value_parsing :
    (∀ q : ℚ, truncQ q < 1 ∨ 10 < truncQ q →
      parse_mood_value (MoodInput.num q) = none
      ∧ log_mood (MoodInput.num q)
          = { success := false, mood_value := none, error := some "Invalid mood value" })
    ∧ parse_mood_value (MoodInput.str "great") = some 8
    ∧ parse_mood_value (MoodInput.str "7") = some 7
    ∧ parse_mood_value (MoodInput.num ((79 : ℚ) / 10)) = some 7
    ∧ parse_mood_value (MoodInput.num (11 : ℚ)) = none
    ∧ parse_mood_value (MoodInput.str "invalid") = none
    ∧ log_mood (MoodInput.num (11 : ℚ))
        = { success := false, mood_value := none, error := some "Invalid mood value" }
    ∧ log_mood (MoodInput.str "invalid")
        = { success := false, mood_value := none, error := some "Invalid mood value" } := by
  have hgen : ∀ q : ℚ, truncQ q < 1 ∨ 10 < truncQ q →
      parse_mood_value (MoodInput.num q) = none := by
    intro q h
    unfold parse_mood_value
    dsimp only
    rw [if_neg]
    intro hc
    rcases h with h | h
    · exact absurd hc.1 (not_le.2 h)
    · exact absurd hc.2 (not_le.2 h)
  have h79 : parse_mood_value (MoodInput.num ((79 : ℚ) / 10)) = some 7 := by
    unfold parse_mood_value
    dsimp only
    rw [truncQ_seven_point_nine, if_pos (by norm_num)]
  have h11 : parse_mood_value (MoodInput.num (11 : ℚ)) = none :=
    hgen 11 (Or.inr (by rw [truncQ_eleven]; norm_num))
  refine ⟨fun q h => ⟨hgen q h, ?_⟩, by decide, by decide, h79, h11, by decide, ?_, by decide⟩
  · unfold log_mood
    rw [hgen q h]
  · unfold log_mood
    rw [h11]

/-- Witness for `mood_value_parsing` at the out-of-range input 11. -/
theorem mood_value_parsing_witness :
    parse_mood_value (MoodInput.num (11 : ℚ)) = none
    ∧ log_mood (MoodInput.num (11 : ℚ))
        = { success := false, mood_value := none, error := some "Invalid mood value" } :=
  mood_value_parsing.1 11 (Or.inr (by rw [truncQ_eleven]; norm_num))

/-- C9: a bulk read over stored mood documents returns exactly the
per-document decode results — every document that deserializes and lies
in the window appears in the result (the output is a permutation of the
individual decodes, and membership is preserved), and each malformed
document is skipped individually; with 5 stored documents of which 1 is
malformed, the 4 good ones are returned, not an empty list. -/
theorem mood_bulk_read_partial_failure :
    (∀ (docs : List StoredMoodDoc) (a b : ℚ),
      List.Perm (get_mood_entries_in_range docs a b) (docs.filterMap (decodeMoodDoc a b)))
    ∧ (∀ (docs : List StoredMoodDoc) (a b t : ℚ) (s : String),
        StoredMoodDoc.entry t s ∈ docs → a ≤ t → t ≤ b →
        (t, s) ∈ get_mood_entries_in_range docs a b)
    ∧ get_mood_entries_in_range
        [StoredMoodDoc.entry 3 "m3", StoredMoodDoc.malformed,
         StoredMoodDoc.entry 1 "m1", StoredMoodDoc.entry 5 "m5",
         StoredMoodDoc.entry 2 "m2"] 0 100
      = [(1, "m1"), (2, "m2"), (3, "m3"), (5, "m5")] := by
  refine ⟨fun docs a b => List.perm_insertionSort entryLE _, ?_, by decide⟩
  intro docs a b t s hmem ha hb
  unfold get_mood_entries_in_range
  rw [List.mem_insertionSort, List.mem_filterMap]
  exact ⟨StoredMoodDoc.entry t s, hmem, by rw [decodeMoodDoc, if_pos ⟨ha, hb⟩]⟩

/-- Witness for `mood_bulk_read_partial_failure`: the in-range entry
with timestamp 2 of the five-document example is returned. -/
theorem mood_bulk_read_partial_failure_witness :
    ((2 : ℚ), "m2") ∈ get_mood_entries_in_range
        [StoredMoodDoc.entry 3 "m3", StoredMoodDoc.malformed,
         StoredMoodDoc.entry 1 "m1", StoredMoodDoc.entry 5 "m5",
         StoredMoodDoc.entry 2 "m2"] 0 100 :=
  mood_bulk_read_partial_failure.2.1
    [StoredMoodDoc.entry 3 "m3", StoredMoodDoc.malformed,
     StoredMoodDoc.entry 1 "m1", StoredMoodDoc.entry 5 "m5",
     StoredMoodDoc.entry 2 "m2"] 0 100 2 "m2" (by decide) (by norm_num) (by norm_num)

/-- C10: `add_task` never rejects an invalid priority or category — a
priority outside the four levels is silently replaced by `medium`, a
category outside the ten wellness categories is silently replaced by
`personal`, and the task is still created with status `pending` and a
`success` flag of `true`; concretely so for priority `CRAZY` and
category `nope`. -/
theorem add_task_silently_defaults :
    (∀ taskId now title description priority category impact : String,
      (add_task taskId now title description priority category impact).1 = true
      ∧ (add_task taskId now title description priority category impact).2.status = "pending"
      ∧ (add_task taskId now title description priority category impact).2.priority
          = (if priority ∈ priorityLevelsKeys then priority else "medium")
      ∧ (add_task taskId now title description priority category impact).2.category
          = (if category ∈ taskCategoriesKeys then category else "personal"))
    ∧ (add_task "id1" "T0" "Meditate" "" "CRAZY" "nope" "neutral").1 = true
    ∧ (add_task "id1" "T0" "Meditate" "" "CRAZY" "nope" "neutral").2.priority = "medium"
    ∧ (add_task "id1" "T0" "Meditate" "" "CRAZY" "nope" "neutral").2.category = "personal"
    ∧ (add_task "id1" "T0" "Meditate" "" "CRAZY" "nope" "neutral").2.status = "pending" := by
  exact ⟨fun taskId now title description priority category impact =>
    ⟨rfl, rfl, rfl, rfl⟩, by decide, by decide, by decide, by decide⟩
